import Mathlib

/-!
Shallow embedding of `react-gamepad-hooks` (src/src/index.ts) and proofs of
the specification's claims about it.

Numeric raw values (axis positions in [-1,1], button values in [0,1],
timestamps in milliseconds) are embedded as rationals; every comparison the
source performs is an exact order comparison, so `ℚ` reproduces the source's
branching faithfully on all inputs expressible as rationals.

React-specific state is made explicit:
  - `useRef` cells of one `useGamepadJoystick` instance become the fields of
    `JoyState`; they persist across effect re-runs and are re-initialised
    only when the component instance is recreated.
  - the `useState` list of `useGamepadManager` becomes an explicit
    `List GamepadInfo` threaded through `updateGamepads` / `markBusy`.
-/

namespace GamepadHooks

/-! ## Axis model (index.ts lines 136-169) -/

/-- A deadzone-filtered axis pair `(dx, dy)` for one side. -/
structure AxisPair where
  dx : ℚ
  dy : ℚ
deriving DecidableEq

/-- index.ts line 138 / 142: `Math.abs(v) > deadzone ? v : 0` (X axes,
raw indices 0 and 2). -/
def filterAxisX (deadzone v : ℚ) : ℚ :=
  if |v| > deadzone then v else 0

/-- index.ts line 139 / 143: `Math.abs(v) > deadzone ? -v : 0` (Y axes,
raw indices 1 and 3, sign-inverted so positive dy means up). -/
def filterAxisY (deadzone v : ℚ) : ℚ :=
  if |v| > deadzone then -v else 0

/-- index.ts lines 136-145: build the filtered pairs for both sides from the
four raw axis values `gp.axes[0..3]`. -/
def axesRaw (deadzone a0 a1 a2 a3 : ℚ) : AxisPair × AxisPair :=
  (⟨filterAxisX deadzone a0, filterAxisY deadzone a1⟩,
   ⟨filterAxisX deadzone a2, filterAxisY deadzone a3⟩)

/-- index.ts line 152: `next.dx === 0 && next.dy === 0`. -/
def isNeutral (p : AxisPair) : Bool :=
  decide (p.dx = 0 ∧ p.dy = 0)

/-- The two joystick emit modes (index.ts lines 4-5). -/
inductive EmitMode where
  | always
  | onChange
deriving DecidableEq

/-- The per-side mutable state of one joystick instance:
`prevAxesRef.current[side]` (line 119) and
`lastNonNeutralRef.current[side]` (line 118). -/
structure SideState where
  prev : AxisPair
  wasNonNeutral : Bool
deriving DecidableEq

/-- Initial per-side ref values (index.ts lines 118-122): previous pair
`(0,0)`, non-neutral flag `false`. -/
def initSideState : SideState :=
  ⟨⟨0, 0⟩, false⟩

/-- index.ts lines 147-169, one side of the per-frame axis processing, with
the side's move callback supplied.  Returns the emission handed to the
callback (`none` when the callback is not invoked this frame) and the
updated side state.  `shouldEmit` is the frame's rate-eligibility flag
computed on line 134. -/
def sideStep (mode : EmitMode) (st : SideState) (next : AxisPair)
    (shouldEmit : Bool) : Option AxisPair × SideState :=
  let neutral := isNeutral next
  let changed : Bool := decide (next.dx ≠ st.prev.dx ∨ next.dy ≠ st.prev.dy)
  let emit : Option AxisPair :=
    match mode with
    | .always => if shouldEmit then some next else none
    | .onChange =>
        if neutral then
          (if st.wasNonNeutral then some ⟨0, 0⟩ else none)
        else
          (if changed || shouldEmit then some next else none)
  (emit, ⟨next, !neutral⟩)

/-- Run a side over a list of frames, each frame being the filtered pair for
that side together with the frame's rate-eligibility flag; collect the
emitted pairs in order. -/
def sideRun (mode : EmitMode) (st : SideState) :
    List (AxisPair × Bool) → List AxisPair
  | [] => []
  | (next, s) :: rest =>
      let r := sideStep mode st next s
      r.1.toList ++ sideRun mode r.2 rest

/-- The state invariant of the per-side refs: the remembered non-neutral
flag agrees with the remembered previous pair.  It holds initially and is
preserved by every frame. -/
def sideInv (st : SideState) : Prop :=
  st.wasNonNeutral = !(isNeutral st.prev)

theorem axisPair_eq_iff (p q : AxisPair) : p = q ↔ p.dx = q.dx ∧ p.dy = q.dy := by
  cases p; cases q; simp

theorem sideInv_init : sideInv initSideState := by
  simp [sideInv, initSideState, isNeutral]

theorem sideInv_step (mode : EmitMode) (st : SideState) (next : AxisPair)
    (s : Bool) : sideInv (sideStep mode st next s).2 := by
  simp [sideInv, sideStep]

/-! ## Button model (index.ts lines 172-187) -/

/-- The 17 fixed channel names (index.ts lines 7-13). -/
def STANDARD_BUTTONS : List String :=
  ["Face1", "Face2", "Face3", "Face4",
   "LeftBumper", "RightBumper", "LeftTrigger", "RightTrigger",
   "Share", "Options", "LeftStick", "RightStick",
   "DPadUp", "DPadDown", "DPadLeft", "DPadRight",
   "Home"]

/-- index.ts line 173: `STANDARD_BUTTONS[i] ?? Button<i>`. -/
def buttonName (i : Nat) : String :=
  STANDARD_BUTTONS.getD i ("Button" ++ toString i)

/-- The `prevButtonsRef.current` map (index.ts line 123), as an association
list keyed by channel name. -/
abbrev ButtonMap : Type := List (String × ℚ)

/-- index.ts line 175: `prevButtonsRef.current[name] ?? 0`. -/
def lookupD (m : ButtonMap) (name : String) : ℚ :=
  (((m.find? fun p => decide (p.1 = name)).map Prod.snd).getD 0)

/-- JS object assignment `prevButtonsRef.current[name] = value`
(index.ts line 186): replace the entry when the key exists, add it
otherwise. -/
def insertKV (m : ButtonMap) (name : String) (v : ℚ) : ButtonMap :=
  if m.any fun p => decide (p.1 = name) then
    m.map fun p => if p.1 = name then (name, v) else p
  else
    m ++ [(name, v)]

/-- index.ts lines 178-182: the binary edge events for one channel on one
frame, in emission order (`pressed = value > triggerThreshold`, strict;
the two `if`s of lines 181-182 each contribute at most one event). -/
def buttonStep (threshold prevValue value : ℚ) : List Bool :=
  let pressed := decide (value > threshold)
  let prevPressed := decide (prevValue > threshold)
  (if !prevPressed && pressed then [true] else []) ++
  (if prevPressed && !pressed then [false] else [])

/-- index.ts lines 177, 183-184: the analog event for one channel on one
frame; fires only for the trigger channels `i = 6` or `i = 7` and only when
`|value - prevValue| > triggerEpsilon`, carrying the raw value. -/
def analogStep (epsilon : ℚ) (i : Nat) (prevValue value : ℚ) : Option ℚ :=
  if (i = 6 ∨ i = 7) ∧ |value - prevValue| > epsilon then some value else none

/-- The full per-channel processing of one frame (index.ts lines 172-187):
binary edge events, analog event, and the updated remembered value (updated
unconditionally to the raw value). -/
def buttonFrame (threshold epsilon : ℚ) (i : Nat) (prevValue value : ℚ) :
    (List Bool × Option ℚ) × ℚ :=
  ((buttonStep threshold prevValue value, analogStep epsilon i prevValue value), value)

/-- Run one channel over a list of raw values, collecting the binary edge
events in order. -/
def buttonRun (threshold : ℚ) (prevValue : ℚ) : List ℚ → List Bool
  | [] => []
  | v :: vs => buttonStep threshold prevValue v ++ buttonRun threshold v vs

/-! ## Whole-instance state and per-frame poll (index.ts lines 104-202) -/

/-- The `useRef` cells of one `useGamepadJoystick` instance
(index.ts lines 117-123).  These persist across effect re-runs; they are
created with their initial values only when the component mounts. -/
structure JoyState where
  lastEmitTime : ℚ
  leftState : SideState
  rightState : SideState
  prevButtons : ButtonMap
deriving DecidableEq

/-- The initial `useRef` values (index.ts lines 117-123). -/
def initJoyState : JoyState :=
  { lastEmitTime := 0
    leftState := initSideState
    rightState := initSideState
    prevButtons := [] }

/-- Configuration of one joystick instance (index.ts lines 104-115),
with the callbacks assumed supplied. -/
structure JoyConfig where
  joystickRateHz : ℚ
  joystickEmitMode : EmitMode
  deadzone : ℚ
  triggerThreshold : ℚ
  triggerEpsilon : ℚ

/-- A raw gamepad snapshot entry as the poll reads it: the axis values and
the button values (`btn.value`). -/
structure RawGamepad where
  axes : List ℚ
  buttons : List ℚ

/-- Everything one execution of `poll` (index.ts lines 128-192) hands to the
outside world: the two optional move emissions, the binary and analog button
events in order, and whether it requested another animation frame. -/
structure FrameOutput where
  leftEmit : Option AxisPair
  rightEmit : Option AxisPair
  binaryEvents : List (String × Bool)
  analogEvents : List (String × ℚ)
  schedulesNext : Bool
deriving DecidableEq

/-- index.ts lines 172-187: process the button list in index order,
threading the remembered-value map. -/
def processButtons (threshold epsilon : ℚ) (i : Nat) (m : ButtonMap) :
    List ℚ → (List (String × Bool) × List (String × ℚ)) × ButtonMap
  | [] => (([], []), m)
  | v :: vs =>
      let name := buttonName i
      let prev := lookupD m name
      let r := buttonFrame threshold epsilon i prev v
      let rest := processButtons threshold epsilon (i + 1) (insertKV m name r.2) vs
      ((r.1.1.map (fun b => (name, b)) ++ rest.1.1,
        (r.1.2.map (fun x => (name, x))).toList ++ rest.1.2), rest.2)

/-- One execution of `poll` (index.ts lines 128-192) at wall-clock time
`now`, with raw snapshot slot `gp` for the configured device index.  When
the slot is empty the frame only re-schedules (line 131); otherwise axes are
processed for both sides, then buttons, then the rate timestamp is updated
when the frame was rate-eligible (line 189), and the next frame is requested
(line 191). -/
def pollFrame (cfg : JoyConfig) (gp : Option RawGamepad) (now : ℚ)
    (st : JoyState) : FrameOutput × JoyState :=
  match gp with
  | none => (⟨none, none, [], [], true⟩, st)
  | some gp =>
      let intervalMs := 1000 / cfg.joystickRateHz
      let shouldEmit : Bool := decide (now - st.lastEmitTime ≥ intervalMs)
      let pairs := axesRaw cfg.deadzone (gp.axes.getD 0 0) (gp.axes.getD 1 0)
        (gp.axes.getD 2 0) (gp.axes.getD 3 0)
      let l := sideStep cfg.joystickEmitMode st.leftState pairs.1 shouldEmit
      let r := sideStep cfg.joystickEmitMode st.rightState pairs.2 shouldEmit
      let b := processButtons cfg.triggerThreshold cfg.triggerEpsilon 0
        st.prevButtons gp.buttons
      (⟨l.1, r.1, b.1.1, b.1.2, true⟩,
       { lastEmitTime := if shouldEmit then now else st.lastEmitTime
         leftState := l.2
         rightState := r.2
         prevButtons := b.2 })

/-- The body of the joystick effect apart from defining `poll`
(index.ts lines 194-195): reset the rate timestamp to the current time and
request the first frame.  It runs on mount and again on every dependency
change (any option, callback, or the device id; lines 196-201); the
`useRef` cells other than the timestamp are left untouched. -/
def effectSetup (now : ℚ) (st : JoyState) : JoyState :=
  { st with lastEmitTime := now }

/-- Reconfiguration (a change to any entry of the dependency list,
index.ts lines 196-201) re-runs the effect body on the instance's current
ref state. -/
def reconfigureJoystick (now : ℚ) (st : JoyState) : JoyState :=
  effectSetup now st

/-- The cleanup the joystick effect registers: the effect body
(index.ts lines 125-202) returns no destructor, so there is none. -/
def joystickEffectCleanup : Option (JoyState → JoyState) :=
  none

/-! ## Device registry model (index.ts lines 49-101) -/

/-- A non-null raw entry of `navigator.getGamepads()` as `updateGamepads`
reads it. -/
structure RawPad where
  connected : Bool
  id : String
  index : Nat
  mapping : String
  axesLen : Nat
  buttonsLen : Nat
  battery : Option ℚ
deriving DecidableEq

/-- A published device descriptor (index.ts lines 18-27).  The interface
declares every field but `connected` optional; `updateGamepads` always
fills them all in. -/
structure GamepadInfo where
  connected : Bool
  id : Option String
  index : Option Nat
  mapping : Option String
  axes : Option Nat
  buttons : Option Nat
  battery : Option ℚ
  busy : Option Bool
deriving DecidableEq

/-- index.ts lines 52-71: rebuild the descriptor list from the raw snapshot,
skipping null slots, carrying each known slot's `busy` over from the list
`prev` the closure captured (`gamepads.find(g => g.index === gp.index)?.busy
?? false`, line 66), and defaulting `busy` to `false` for new slots. -/
def updateGamepads (prev : List GamepadInfo) (snapshot : List (Option RawPad)) :
    List GamepadInfo :=
  snapshot.filterMap fun o => o.map fun gp =>
    { connected := gp.connected
      id := some gp.id
      index := some gp.index
      mapping := some gp.mapping
      axes := some gp.axesLen
      buttons := some gp.buttonsLen
      battery := gp.battery
      busy := some ((((prev.find? fun g => decide (g.index = some gp.index)).bind
        fun g => g.busy).getD false)) }

/-- The refresh the connect listener, the disconnect listener and the
1000 ms interval perform (index.ts lines 73-87).  The effect has an empty
dependency list, so those three call sites permanently invoke the first
render's `updateGamepads` closure, whose captured `gamepads` is the initial
`useState` value `[]` (line 50); the previously published list is therefore
not consulted. -/
def listenerRefresh (snapshot : List (Option RawPad)) : List GamepadInfo :=
  updateGamepads [] snapshot

/-- index.ts lines 94-98, the functional `setGamepads` update of `markBusy`:
set `busy` on every descriptor whose `index` matches. -/
def markBusy (gps : List GamepadInfo) (index : Nat) (busy : Bool) :
    List GamepadInfo :=
  gps.map fun gp => if gp.index = some index then { gp with busy := some busy } else gp

/-- index.ts line 90: the availability test `g.connected && !g.busy`
(JS `!undefined` is `true`, hence the `false` default). -/
def availableB (g : GamepadInfo) : Bool :=
  g.connected && !(g.busy.getD false)

/-- index.ts lines 89-92: `gamepads.find(g => g.connected && !g.busy)`,
then `gp ? gp.index ?? null : null`. -/
def nextAvailable (gps : List GamepadInfo) : Option Nat :=
  match gps.find? availableB with
  | some gp => gp.index
  | none => none

/-- The index of a descriptor, defaulted; used to phrase ordering over
registry lists whose descriptors all carry an index. -/
def idxVal (g : GamepadInfo) : Nat :=
  g.index.getD 0

/-! ## Helper lemmas -/

theorem buttonStep_cases (threshold p v : ℚ) :
    buttonStep threshold p v =
      if ¬ p > threshold ∧ v > threshold then [true]
      else if p > threshold ∧ ¬ v > threshold then [false]
      else [] := by
  by_cases hp : p > threshold <;> by_cases hv : v > threshold <;>
    simp [buttonStep, hp, hv]

theorem buttonRun_alternates (threshold : ℚ) (vs : List ℚ) :
    ∀ p : ℚ, List.Chain' (fun a b => a ≠ b) (buttonRun threshold p vs) ∧
      ∀ b, (buttonRun threshold p vs).head? = some b → b = decide (¬ p > threshold) := by
  induction vs with
  | nil => intro p; exact ⟨List.chain'_nil, by simp [buttonRun]⟩
  | cons v vs ih =>
      intro p
      rcases ih v with ⟨ihc, ihh⟩
      have hrun : buttonRun threshold p (v :: vs) =
          buttonStep threshold p v ++ buttonRun threshold v vs := rfl
      by_cases hp : p > threshold <;> by_cases hv : v > threshold
      · have hs : buttonStep threshold p v = [] := by
          rw [buttonStep_cases]; simp [hp, hv]
        rw [hrun, hs, List.nil_append]
        refine ⟨ihc, fun b hb => ?_⟩
        rw [ihh b hb]; simp [hp, hv]
      · have hs : buttonStep threshold p v = [false] := by
          rw [buttonStep_cases]; simp [hp, hv]
        rw [hrun, hs, List.singleton_append]
        constructor
        · rw [List.chain'_cons']
          refine ⟨fun b hb => ?_, ihc⟩
          have := ihh b hb
          simp [hv] at this
          simp [this]
        · intro b hb
          simp at hb
          simp [hb, hp]
      · have hs : buttonStep threshold p v = [true] := by
          rw [buttonStep_cases]; simp [hp, hv]
        rw [hrun, hs, List.singleton_append]
        constructor
        · rw [List.chain'_cons']
          refine ⟨fun b hb => ?_, ihc⟩
          have := ihh b hb
          simp [hv] at this
          simp [this]
        · intro b hb
          simp at hb
          simp [hb, hp]
      · have hs : buttonStep threshold p v = [] := by
          rw [buttonStep_cases]; simp [hp, hv]
        rw [hrun, hs, List.nil_append]
        refine ⟨ihc, fun b hb => ?_⟩
        rw [ihh b hb]; simp [hp, hv]

/-! ## Claims -/

/-- C4: the deadzone filter outputs exactly 0 when the raw magnitude is at
most the deadzone; above the deadzone it passes the X-axis value (raw
indices 0 and 2) through unchanged and sign-inverts the Y-axis value (raw
indices 1 and 3). -/
theorem deadzone_filter_characterization (deadzone a0 a1 a2 a3 : ℚ) :
    ((axesRaw deadzone a0 a1 a2 a3).1.dx = filterAxisX deadzone a0 ∧
     (axesRaw deadzone a0 a1 a2 a3).1.dy = filterAxisY deadzone a1 ∧
     (axesRaw deadzone a0 a1 a2 a3).2.dx = filterAxisX deadzone a2 ∧
     (axesRaw deadzone a0 a1 a2 a3).2.dy = filterAxisY deadzone a3)
  ∧ (∀ v : ℚ, |v| ≤ deadzone → filterAxisX deadzone v = 0 ∧ filterAxisY deadzone v = 0)
  ∧ (∀ v : ℚ, |v| > deadzone → filterAxisX deadzone v = v ∧ filterAxisY deadzone v = -v) := by
  refine ⟨⟨rfl, rfl, rfl, rfl⟩, fun v h => ?_, fun v h => ?_⟩
  · have hn : ¬ |v| > deadzone := not_lt.mpr h
    simp [filterAxisX, filterAxisY, hn]
  · simp [filterAxisX, filterAxisY, h]

/-- Witness for C4 at deadzone 1/10: 1/20 is clamped to 0, 1/2 passes
through on X and is negated on Y. -/
theorem deadzone_filter_witness :
    (filterAxisX (1/10) (1/20) = 0 ∧ filterAxisY (1/10) (1/20) = 0) ∧
    (filterAxisX (1/10) (1/2) = 1/2 ∧ filterAxisY (1/10) (1/2) = -(1/2)) :=
  ⟨(deadzone_filter_characterization (1/10) 0 0 0 0).2.1 (1/20) (by norm_num [abs_le]),
   (deadzone_filter_characterization (1/10) 0 0 0 0).2.2 (1/2)
     (by rw [abs_of_nonneg] <;> norm_num)⟩

/-- C3: the analog event fires, carrying the raw value, exactly when the
channel index is 6 or 7 and the absolute change exceeds triggerEpsilon; it
never fires for any other channel; an analog event and a binary edge can
fire for the same channel in the same frame (shown at raw step 0 to 3/20
with threshold 1/10 and epsilon 1/100); and on the scenario step from 0 to
1/20 with epsilon 1/100 the fire condition is satisfied. -/
theorem analog_emit_characterization :
    (∀ (epsilon : ℚ) (i : Nat) (prevValue value : ℚ),
      ((buttonFrame 0 epsilon i prevValue value).1.2 = some value ↔
        ((i = 6 ∨ i = 7) ∧ |value - prevValue| > epsilon)) ∧
      ((buttonFrame 0 epsilon i prevValue value).1.2 = none ↔
        ¬ ((i = 6 ∨ i = 7) ∧ |value - prevValue| > epsilon)) ∧
      ∀ threshold : ℚ, (buttonFrame threshold epsilon i prevValue value).1.2 =
        analogStep epsilon i prevValue value)
  ∧ (buttonFrame (1/10) (1/100) 6 0 (3/20)).1 = ([true], some (3/20))
  ∧ analogStep (1/100) 6 0 (1/20) = some (1/20) := by
  refine ⟨fun epsilon i prevValue value => ?_, ?_, ?_⟩
  · by_cases hc : (i = 6 ∨ i = 7) ∧ |value - prevValue| > epsilon <;>
      simp [buttonFrame, analogStep, hc]
  · have h3 : |(3:ℚ)/20| > 1/100 := by rw [abs_of_nonneg] <;> norm_num
    norm_num [buttonFrame, buttonStep, analogStep, h3]
  · have h : |(1:ℚ)/20| > 1/100 := by rw [abs_of_nonneg] <;> norm_num
    norm_num [analogStep, h]

/-- C10: a fresh instance's button map is empty, so every channel's
remembered previous value defaults to 0; with a nonnegative threshold a
first-frame raw value above it immediately emits binary-press(true), and a
trigger channel whose nonnegative raw value exceeds epsilon immediately
emits an analog event. -/
theorem first_frame_defaults (threshold epsilon value : ℚ) (i : Nat)
    (hthr : 0 ≤ threshold) (hval : 0 ≤ value) :
    lookupD initJoyState.prevButtons (buttonName i) = 0
  ∧ (value > threshold →
      buttonStep threshold (lookupD initJoyState.prevButtons (buttonName i)) value = [true])
  ∧ ((i = 6 ∨ i = 7) → value > epsilon →
      analogStep epsilon i (lookupD initJoyState.prevButtons (buttonName i)) value
        = some value) := by
  have h0 : lookupD initJoyState.prevButtons (buttonName i) = 0 := rfl
  refine ⟨h0, fun hpress => ?_, fun htrig heps => ?_⟩
  · rw [h0, buttonStep_cases]
    have hnp : ¬ (0 : ℚ) > threshold := not_lt.mpr hthr
    simp [hnp, hpress]
  · rw [h0]
    have habs : |value - 0| > epsilon := by
      rw [sub_zero, abs_of_nonneg hval]; exact heps
    simp only [analogStep]
    rw [if_pos ⟨htrig, habs⟩]

/-- Witness for C10: channel 6 at raw value 1/2 on the first frame, with
threshold 1/10 and epsilon 1/100. -/
theorem first_frame_defaults_witness :
    buttonStep (1/10) (lookupD initJoyState.prevButtons (buttonName 6)) (1/2) = [true] ∧
    analogStep (1/100) 6 (lookupD initJoyState.prevButtons (buttonName 6)) (1/2)
      = some (1/2) :=
  ⟨(first_frame_defaults (1/10) (1/100) (1/2) 6 (by norm_num) (by norm_num)).2.1
      (by norm_num),
   (first_frame_defaults (1/10) (1/100) (1/2) 6 (by norm_num) (by norm_num)).2.2
      (Or.inl rfl) (by norm_num)⟩

/-- C2: with strict threshold comparison, binary-press(true) is emitted on
a frame exactly when the channel goes from not-pressed to pressed and
binary-press(false) exactly when it goes from pressed to not-pressed; at
most one edge event fires per channel per frame; and over any raw-value
sequence the consecutive binary events of a channel carry alternating
booleans. -/
theorem button_edge_characterization (threshold prevValue value : ℚ) :
    ((true ∈ buttonStep threshold prevValue value) ↔
      (¬ prevValue > threshold ∧ value > threshold))
  ∧ ((false ∈ buttonStep threshold prevValue value) ↔
      (prevValue > threshold ∧ ¬ value > threshold))
  ∧ (buttonStep threshold prevValue value).length ≤ 1
  ∧ (∀ (start : ℚ) (vs : List ℚ),
      List.Chain' (fun a b => a ≠ b) (buttonRun threshold start vs)) := by
  refine ⟨?_, ?_, ?_, fun start vs => (buttonRun_alternates threshold vs start).1⟩ <;>
    rw [buttonStep_cases] <;>
    by_cases hp : prevValue > threshold <;> by_cases hv : value > threshold <;>
    simp [hp, hv]

theorem sideStep_onChange_emit (st : SideState) (next : AxisPair) (s : Bool) :
    (sideStep .onChange st next s).1 =
      if next.dx = 0 ∧ next.dy = 0 then
        (if st.wasNonNeutral then some ⟨0, 0⟩ else none)
      else
        (if next ≠ st.prev ∨ s = true then some next else none) := by
  by_cases hn : next.dx = 0 ∧ next.dy = 0
  · simp [sideStep, isNeutral, hn]
  · by_cases hc : next = st.prev
    · have hd : ¬ (next.dx ≠ st.prev.dx ∨ next.dy ≠ st.prev.dy) := by
        rw [hc]; simp
      cases s <;> simp [sideStep, isNeutral, hn, hc, hd]
    · have hd : next.dx ≠ st.prev.dx ∨ next.dy ≠ st.prev.dy := by
        rw [axisPair_eq_iff] at hc; tauto
      cases s <;> simp [sideStep, isNeutral, hn, hc, hd]

/-- C1: under EmitOnChange, starting from the initial per-side state and
for every state the per-frame loop can reach (the remembered non-neutral
flag always agrees with the remembered pair), the move callback fires on a
frame exactly when the filtered pair differs from the previously remembered
pair for that side or the pair is non-neutral and the frame is
rate-eligible; a non-neutral remembered pair followed by exactly (0,0)
fires once with (0,0) even on a non-rate-eligible frame; a neutral pair
following a neutral pair fires nothing; and a non-neutral emission carries
the filtered pair itself. -/
theorem emit_on_change_characterization (st : SideState) (next : AxisPair)
    (s : Bool) (h : sideInv st) :
    sideInv initSideState
  ∧ sideInv (sideStep .onChange st next s).2
  ∧ ((sideStep .onChange st next s).1 ≠ none ↔
      (next ≠ st.prev ∨ (¬ (next.dx = 0 ∧ next.dy = 0) ∧ s = true)))
  ∧ (st.prev ≠ ⟨0, 0⟩ → next = ⟨0, 0⟩ →
      (sideStep .onChange st next s).1 = some ⟨0, 0⟩)
  ∧ (st.prev = ⟨0, 0⟩ → next = ⟨0, 0⟩ →
      (sideStep .onChange st next s).1 = none)
  ∧ (¬ (next.dx = 0 ∧ next.dy = 0) → (sideStep .onChange st next s).1 ≠ none →
      (sideStep .onChange st next s).1 = some next) := by
  have hzero : ∀ p : AxisPair, p = ⟨0, 0⟩ ↔ (p.dx = 0 ∧ p.dy = 0) := by
    intro p; rw [axisPair_eq_iff]
  have hwnn : st.wasNonNeutral = true ↔ ¬ (st.prev.dx = 0 ∧ st.prev.dy = 0) := by
    rw [h]; by_cases hp : st.prev.dx = 0 ∧ st.prev.dy = 0 <;> simp [isNeutral, hp]
  refine ⟨sideInv_init, sideInv_step _ _ _ _, ?_, ?_, ?_, ?_⟩
  · rw [sideStep_onChange_emit]
    by_cases hn : next.dx = 0 ∧ next.dy = 0
    · rw [if_pos hn]
      by_cases hw : st.wasNonNeutral
      · have hp : st.prev ≠ ⟨0, 0⟩ :=
          fun e => (hwnn.mp hw) ((hzero st.prev).mp e)
        have hne : next ≠ st.prev := by
          rw [(hzero next).mpr hn]; exact fun e => hp e.symm
        rw [if_pos hw]
        constructor
        · intro _; exact Or.inl hne
        · intro _; simp
      · have hp : st.prev = ⟨0, 0⟩ := by
          rw [hzero]
          by_contra hq
          exact hw (hwnn.mpr hq)
        have hne : next = st.prev := by rw [hp, (hzero next).mpr hn]
        rw [if_neg hw]
        constructor
        · intro hx; exact absurd rfl hx
        · rintro (hx | ⟨hx, _⟩)
          · exact absurd hne hx
          · exact absurd hn hx
    · rw [if_neg hn]
      by_cases hc : next ≠ st.prev ∨ s = true
      · rw [if_pos hc]
        constructor
        · intro _
          rcases hc with hx | hx
          · exact Or.inl hx
          · exact Or.inr ⟨hn, hx⟩
        · intro _; simp
      · rw [if_neg hc]
        push_neg at hc
        constructor
        · intro hx; exact absurd rfl hx
        · rintro (hx | ⟨_, hx⟩)
          · exact absurd hc.1 hx
          · exact absurd hx hc.2
  · intro hp hnext
    have hn : next.dx = 0 ∧ next.dy = 0 := (hzero next).mp hnext
    have hw : st.wasNonNeutral = true := hwnn.mpr ((hzero st.prev).not.mp hp)
    rw [sideStep_onChange_emit, if_pos hn, if_pos hw]
  · intro hp hnext
    have hn : next.dx = 0 ∧ next.dy = 0 := (hzero next).mp hnext
    have hw : ¬ st.wasNonNeutral = true := by
      rw [hwnn]; simp [(hzero st.prev).mp hp]
    rw [sideStep_onChange_emit, if_pos hn, if_neg hw]
  · intro hn hne
    rw [sideStep_onChange_emit, if_neg hn] at hne ⊢
    by_cases hc : next ≠ st.prev ∨ s = true
    · rw [if_pos hc]
    · rw [if_neg hc] at hne; exact absurd rfl hne

/-- Witness for C1: from the initial state, a rate-eligible frame with the
non-neutral filtered pair (1/2, 0) invokes the callback. -/
theorem emit_on_change_witness :
    (sideStep .onChange initSideState ⟨1/2, 0⟩ true).1 ≠ none :=
  (emit_on_change_characterization initSideState ⟨1/2, 0⟩ true
      (by simp [sideInv, initSideState, isNeutral])).2.2.1.mpr
    (Or.inr ⟨by norm_num, rfl⟩)

/-- A joystick instance state mid-session: the left stick was last seen at
(1/2, 0) and Face1 was last seen fully pressed. -/
def preJoyState : JoyState :=
  { lastEmitTime := 0
    leftState := ⟨⟨1/2, 0⟩, true⟩
    rightState := initSideState
    prevButtons := [("Face1", 1)] }

/-- C5 counterexample: re-running the effect on reconfiguration leaves the
previous axis values and the previous button values of the instance intact;
at the state `preJoyState` the left previous pair is still (1/2, 0), not
(0, 0), and the button map is still non-empty. -/
theorem reconfigure_not_clean_slate :
    (reconfigureJoystick 100 preJoyState).leftState.prev ≠ ⟨0, 0⟩ ∧
    (reconfigureJoystick 100 preJoyState).prevButtons ≠ [] := by
  constructor
  · intro e
    have e2 : ((1:ℚ)/2) = 0 := ((axisPair_eq_iff _ _).mp e).1
    norm_num at e2
  · intro e
    exact List.cons_ne_nil _ _ e

/-- C5 amended: reconfiguring the joystick instance re-runs the effect
body, which resets only the last-emit timestamp; the previous axis values,
previous non-neutral flags and previous button values persist across the
reconfiguration. -/
theorem reconfigure_resets_only_timestamp (now : ℚ) (st : JoyState) :
    (reconfigureJoystick now st).lastEmitTime = now
  ∧ (reconfigureJoystick now st).leftState = st.leftState
  ∧ (reconfigureJoystick now st).rightState = st.rightState
  ∧ (reconfigureJoystick now st).prevButtons = st.prevButtons :=
  ⟨rfl, rfl, rfl, rfl⟩

/-- C6: the per-frame poll requests another animation frame on every input
— whether the device slot is absent or present, rate-eligible or not — and
the joystick effect registers no cleanup, so tearing the instance down has
nothing it can cancel and the loop keeps scheduling frames. -/
theorem poll_always_reschedules (cfg : JoyConfig) (gp : Option RawGamepad)
    (now : ℚ) (st : JoyState) :
    (pollFrame cfg gp now st).1.schedulesNext = true
  ∧ joystickEffectCleanup = none := by
  cases gp <;> exact ⟨rfl, rfl⟩

/-- The spec scenario for C9: raw left-axis X goes 0, 1/2, 1/20, 0 with
deadzone 1/10 and the Y axis neutral; each frame carries an arbitrary
rate-eligibility flag. -/
def scenarioFrames (s1 s2 s3 s4 : Bool) : List (AxisPair × Bool) :=
  [(⟨filterAxisX (1/10) 0, filterAxisY (1/10) 0⟩, s1),
   (⟨filterAxisX (1/10) (1/2), filterAxisY (1/10) 0⟩, s2),
   (⟨filterAxisX (1/10) (1/20), filterAxisY (1/10) 0⟩, s3),
   (⟨filterAxisX (1/10) 0, filterAxisY (1/10) 0⟩, s4)]

theorem scenario_run_eval (s1 s2 s3 s4 : Bool) :
    (sideRun .onChange initSideState (scenarioFrames s1 s2 s3 s4)).map
      AxisPair.dx = [1/2, 0] := by
  have ha2 : |(1:ℚ)/2| = 1/2 := abs_of_nonneg (by norm_num)
  have ha20 : |(1:ℚ)/20| = 1/20 := abs_of_nonneg (by norm_num)
  norm_num [sideRun, sideStep, isNeutral, scenarioFrames, initSideState,
    filterAxisX, filterAxisY, ha2, ha20]

/-- C9 counterexample: under the default EmitOnChange mode the dx values
the caller observes on the scenario 0, 1/2, 1/20, 0 with deadzone 1/10 are
not 1/2, 0, 0 — the final neutral frame emits nothing because the release
was already reported on the previous frame. -/
theorem deadzone_scenario_counterexample :
    (sideRun .onChange initSideState (scenarioFrames true true true true)).map
      AxisPair.dx ≠ [1/2, 0, 0] := by
  rw [scenario_run_eval]
  simp

/-- C9 amended: on the scenario 0, 1/2, 1/20, 0 with deadzone 1/10 under
EmitOnChange, and for every rate-eligibility pattern, the observed dx
sequence is exactly 1/2, 0: the 1/20 reading is clamped into the deadzone
and reported once as the neutral release, and the final 0 frame emits
nothing. -/
theorem deadzone_scenario_amended (s1 s2 s3 s4 : Bool) :
    (sideRun .onChange initSideState (scenarioFrames s1 s2 s3 s4)).map
      AxisPair.dx = [1/2, 0] :=
  scenario_run_eval s1 s2 s3 s4

/-- A connected raw entry sitting in snapshot slot 0. -/
def rawPad0 : RawPad :=
  { connected := true, id := "pad", index := 0, mapping := "standard",
    axesLen := 4, buttonsLen := 17, battery := none }

/-- C7 evaluation: the `updateGamepads` rebuild does carry `busy` forward
from the list it is given (third conjunct), but the connect/disconnect
listeners and the 1000 ms timer invoke the first render's closure, whose
captured list is the initial `[]`; a refresh through them rebuilds the
descriptor for the still-connected slot 0 with `busy = false` even though
the published list had `busy = true` for that slot. -/
theorem registry_busy_lost :
    ((markBusy (updateGamepads [] [some rawPad0]) 0 true).head?.bind
        (fun g => g.busy) = some true)
  ∧ ((listenerRefresh [some rawPad0]).head?.bind (fun g => g.busy) = some false)
  ∧ ((updateGamepads (markBusy (updateGamepads [] [some rawPad0]) 0 true)
        [some rawPad0]).head?.bind (fun g => g.busy) = some true) :=
  ⟨rfl, rfl, rfl⟩

theorem nextAvailable_min (gps : List GamepadInfo)
    (hsorted : List.Pairwise (fun a b => idxVal a < idxVal b) gps) :
    ∀ g, gps.find? availableB = some g →
      ∀ g' ∈ gps, availableB g' = true → idxVal g ≤ idxVal g' := by
  induction gps with
  | nil => intro g h; simp at h
  | cons x xs ih =>
      rcases List.pairwise_cons.mp hsorted with ⟨hx, hxs⟩
      intro g h g' hg' ha'
      by_cases hax : availableB x = true
      · rw [List.find?_cons_of_pos _ hax] at h
        injection h with h
        subst h
        rcases List.mem_cons.mp hg' with rfl | hg'
        · exact le_refl _
        · exact le_of_lt (hx g' hg')
      · rw [List.find?_cons_of_neg _ hax] at h
        rcases List.mem_cons.mp hg' with rfl | hg'
        · exact absurd ha' hax
        · exact ih hxs g h g' hg' ha'

/-- C8: over a registry list whose descriptors all carry an index and are
ordered by increasing index, `nextAvailable` returns none exactly when no
descriptor is connected and non-busy, and otherwise returns the slot of a
connected, non-busy descriptor whose index is minimal among all qualifying
descriptors; and immediately after `markBusy` sets a slot busy,
`nextAvailable` never returns that slot. -/
theorem nextAvailable_correct (gps : List GamepadInfo) (n : Nat)
    (hidx : ∀ g ∈ gps, (g.index).isSome = true)
    (hsorted : List.Pairwise (fun a b => idxVal a < idxVal b) gps) :
    (nextAvailable gps = none ↔ ∀ g ∈ gps, availableB g = false)
  ∧ (∀ m, nextAvailable gps = some m →
      ∃ g ∈ gps, g.index = some m ∧ availableB g = true ∧
        ∀ g' ∈ gps, availableB g' = true → m ≤ idxVal g')
  ∧ (∀ m, nextAvailable (markBusy gps n true) = some m → m ≠ n) := by
  refine ⟨⟨?_, ?_⟩, ?_, ?_⟩
  · intro hnone g hg
    cases hfind : gps.find? availableB with
    | none =>
        have h2 := List.find?_eq_none.mp hfind g hg
        simpa using h2
    | some g0 =>
        exfalso
        have hs := hidx g0 (List.mem_of_find?_eq_some hfind)
        have h3 : nextAvailable gps = g0.index := by simp [nextAvailable, hfind]
        rw [hnone] at h3
        cases hi : g0.index with
        | none => rw [hi] at hs; simp at hs
        | some k => rw [hi] at h3; cases h3
  · intro hall
    have hfind : gps.find? availableB = none :=
      List.find?_eq_none.mpr fun g hg => by simp [hall g hg]
    simp [nextAvailable, hfind]
  · intro m hm
    cases hfind : gps.find? availableB with
    | none => simp [nextAvailable, hfind] at hm
    | some g =>
        have hmem := List.mem_of_find?_eq_some hfind
        have hpred := List.find?_some hfind
        have hidxg : g.index = some m := by
          have h3 : nextAvailable gps = g.index := by simp [nextAvailable, hfind]
          rw [hm] at h3
          exact h3.symm
        refine ⟨g, hmem, hidxg, hpred, ?_⟩
        intro g' hg' ha'
        have hmin := nextAvailable_min gps hsorted g hfind g' hg' ha'
        have hv : idxVal g = m := by simp [idxVal, hidxg]
        rw [hv] at hmin
        exact hmin
  · intro m hm hmn
    subst hmn
    cases hfind : (markBusy gps m true).find? availableB with
    | none => simp [nextAvailable, hfind] at hm
    | some g =>
        have hpred := List.find?_some hfind
        have hmem := List.mem_of_find?_eq_some hfind
        have hidxg : g.index = some m := by
          have h3 : nextAvailable (markBusy gps m true) = g.index := by
            simp [nextAvailable, hfind]
          rw [hm] at h3
          exact h3.symm
        rcases List.mem_map.mp hmem with ⟨gp, hgp, hEq⟩
        by_cases hi : gp.index = some m
        · have hg2 : g = { gp with busy := some true } := by
            rw [← hEq, if_pos hi]
          rw [hg2] at hpred
          simp [availableB] at hpred
        · have hg2 : g = gp := by rw [← hEq, if_neg hi]
          rw [hg2] at hidxg
          exact hi hidxg

/-- A minimal connected descriptor in slot `i` with busy flag `b`. -/
def descConnected (i : Nat) (b : Bool) : GamepadInfo :=
  { connected := true, id := none, index := some i, mapping := none,
    axes := none, buttons := none, battery := none, busy := some b }

/-- Witness for C8: with slot 0 busy and slot 1 free, the returned slot is
1, the minimal qualifying one. -/
theorem nextAvailable_witness :
    ∃ g ∈ [descConnected 0 true, descConnected 1 false], g.index = some 1 ∧
      availableB g = true ∧
      ∀ g' ∈ [descConnected 0 true, descConnected 1 false],
        availableB g' = true → 1 ≤ idxVal g' :=
  (nextAvailable_correct [descConnected 0 true, descConnected 1 false] 0
      (by intro g hg
          rcases List.mem_cons.mp hg with rfl | hg
          · rfl
          · rcases List.mem_cons.mp hg with rfl | hg
            · rfl
            · simp at hg)
      (by simp [List.pairwise_cons, idxVal, descConnected])).2.1 1 rfl

end GamepadHooks
